import Mathlib

/-!
Shallow embedding of the `react-imvc-template` development environment
(`setup-dev-env.js`): the dev-server hot-module loop, the HTTP bootstrap
(`normalizePort`, the patched `global.fetch`), and the `Controller` base class
(`prependRestfulBasename`, `fetchPreload`, `combineHandlers`, `init`).
JS strings are Lean `String`s, JS objects are association lists with
last-write-wins lookup, and the asynchronous parts are modelled as pure
functions over explicit state.
-/

set_option autoImplicit false

/-- JS `s.indexOf(pat) === 0`: `pat` occurs at position 0 of `s`. -/
def jsStartsWith (s pat : String) : Bool :=
  pat.data.isPrefixOf s.data

/-- JS `s.indexOf(pat) !== -1`: `pat` occurs somewhere in `s`. -/
def jsContains (s pat : String) : Bool :=
  s.data.tails.any (fun t => pat.data.isPrefixOf t)

/-- JS `String.prototype.replace` with a plain-string pattern rewrites only the
first occurrence of the pattern; the string comes back unchanged when the
pattern is absent. -/
def replaceFirstAux (pat rep : List Char) : List Char → List Char
  | [] => if pat.isPrefixOf ([] : List Char) then rep else []
  | c :: rest =>
    if pat.isPrefixOf (c :: rest) then rep ++ (c :: rest).drop pat.length
    else c :: replaceFirstAux pat rep rest

/-- JS `s.replace(pat, rep)` for a plain-string `pat`. -/
def jsReplaceFirst (s pat rep : String) : String :=
  String.mk (replaceFirstAux pat.data rep.data s.data)

/-- Last-write-wins lookup in a JS-object model: `o[k]`, where later entries in
the list are later assignments and therefore shadow earlier ones. -/
def objLookup {α : Type} (o : List (String × α)) (k : String) : Option α :=
  (o.reverse.find? (fun p => p.1 == k)).map Prod.snd

/-- The `context` object shared by the controllers of one request/session. -/
structure Context where
  isClient : Bool
  isServer : Bool
  cookie : String
  locationOrigin : String
  basename : String
  publicPath : String
  restfulApi : String
  preload : List (String × String)
deriving DecidableEq

/-- Modelled from the spec: the controller imports `isAbsoluteUrl` from a
`util` module that is not among the sources.  Per the spec, absolute URLs are
the ones that pass through the resolvers unchanged: scheme-carrying
(`http...`) and protocol-relative (`//...`) URLs, the two shapes the
client-side `http:`-stripping branch of `prependRestfulBasename` expects. -/
def isAbsoluteUrl (url : String) : Bool :=
  jsStartsWith url "http" || jsStartsWith url "//"

/-- `Controller.prependBasename`: resolve a relative path against the site
origin and basename. -/
def prependBasename (ctx : Context) (pathname : String) : String :=
  if isAbsoluteUrl pathname then pathname
  else ctx.locationOrigin ++ ctx.basename ++ pathname

/-- `Controller.prependPublicPath`: resolve a relative path against the site
origin and public asset path. -/
def prependPublicPath (ctx : Context) (pathname : String) : String :=
  if isAbsoluteUrl pathname then pathname
  else ctx.locationOrigin ++ ctx.publicPath ++ pathname

/-- `Controller.prependRestfulBasename`: absolute URLs pass through (the client
strips a leading `http:` so the browser picks the page protocol), `/mock/`
URLs go to the site's own origin and basename, everything else is prefixed
with the RESTful API base. -/
def prependRestfulBasename (ctx : Context) (url : String) : String :=
  if isAbsoluteUrl url then
    if ctx.isClient && jsStartsWith url "http:" then jsReplaceFirst url "http:" ""
    else url
  else if jsStartsWith url "/mock/" then ctx.locationOrigin ++ ctx.basename ++ url
  else ctx.restfulApi ++ url

/-- The whitespace JS `parseInt` skips before reading the number. -/
def isJsWhitespace (c : Char) : Bool :=
  c = ' ' || c = '\t' || c = '\n' || c = '\r'

/-- Value of a digit run, most significant digit first. -/
def digitsVal (cs : List Char) : Nat :=
  cs.foldl (fun acc c => 10 * acc + (c.toNat - Char.toNat '0')) 0

/-- Longest leading digit run; `none` when there is no digit at all. -/
def parseDigits (cs : List Char) : Option Nat :=
  let ds := cs.takeWhile (fun c => c.isDigit)
  if ds.isEmpty then none else some (digitsVal ds)

/-- JS `parseInt(val, 10)`: skip whitespace, read an optional sign and then the
longest digit run; `NaN` (here `none`) when no digit follows. -/
def jsParseInt10 (s : String) : Option Int :=
  match s.data.dropWhile isJsWhitespace with
  | '-' :: rest => (parseDigits rest).map (fun n => -(n : Int))
  | '+' :: rest => (parseDigits rest).map (fun n => (n : Int))
  | cs => (parseDigits cs).map (fun n => (n : Int))

/-- Result of `normalizePort`: a named pipe (the string back), a port number,
or `false` (no port). -/
inductive PortResult where
  | pipe (s : String)
  | port (n : Nat)
  | noPort
deriving DecidableEq

/-- `normalizePort` from the bootstrap script. -/
def normalizePort (val : String) : PortResult :=
  match jsParseInt10 val with
  | none => .pipe val
  | some p => if 0 ≤ p then .port p.toNat else .noPort

/-- The URL the patched `global.fetch` of the bootstrap hands to the underlying
`node-fetch` (options are forwarded untouched): URLs starting with `/` are
re-targeted at the local server. -/
def patchedFetchUrl (portStr : String) (url : String) : String :=
  if jsStartsWith url "/" then "http://localhost:" ++ portStr ++ url else url

/-- A scheme-carrying (hence absolute) URL, the kind the bootstrap's fetch
patch is specified to leave alone. -/
def hasScheme (url : String) : Bool :=
  jsStartsWith url "http://" || jsStartsWith url "https://"

/-! ### Helper lemmas about the string model -/

theorem jsStartsWith_append (p rest : String) : jsStartsWith (p ++ rest) p = true := by
  unfold jsStartsWith
  rw [List.isPrefixOf_iff_prefix, String.data_append]
  exact List.prefix_append _ _

/-- If `u` starts with `p1` and neither of `p1`, `p2` is a prefix of the
other, `u` does not start with `p2`. -/
theorem jsStartsWith_incomp (u p1 p2 : String) (h1 : jsStartsWith u p1 = true)
    (h12 : p1.data <+: p2.data → False) (h21 : p2.data <+: p1.data → False) :
    jsStartsWith u p2 = false := by
  rw [Bool.eq_false_iff]
  intro h2
  have hp1 := List.isPrefixOf_iff_prefix.mp h1
  have hp2 := List.isPrefixOf_iff_prefix.mp h2
  rcases List.prefix_or_prefix_of_prefix hp1 hp2 with h | h
  · exact h12 h
  · exact h21 h

/-- If `u` starts with `p1` and `p2` is a prefix of `p1`, `u` starts with
`p2` as well. -/
theorem jsStartsWith_of_sub (u p1 p2 : String) (h1 : jsStartsWith u p1 = true)
    (h : p2.data <+: p1.data) : jsStartsWith u p2 = true := by
  unfold jsStartsWith at h1 ⊢
  rw [List.isPrefixOf_iff_prefix] at h1 ⊢
  exact h.trans h1

theorem replaceFirstAux_of_isPrefixOf (pat rep : List Char) (s : List Char)
    (h : pat.isPrefixOf s = true) :
    replaceFirstAux pat rep s = rep ++ s.drop pat.length := by
  cases s with
  | nil =>
    have hpat : pat = [] := by
      rw [List.isPrefixOf_iff_prefix] at h
      exact List.prefix_nil.mp h
    subst hpat
    simp [replaceFirstAux]
  | cons c rest =>
    simp [replaceFirstAux, h]

theorem jsReplaceFirst_strip (p rep rest : String) :
    jsReplaceFirst (p ++ rest) p rep = rep ++ rest := by
  have h : p.data.isPrefixOf (p ++ rest).data = true := jsStartsWith_append p rest
  unfold jsReplaceFirst
  rw [replaceFirstAux_of_isPrefixOf _ _ _ h]
  have hd : (p ++ rest).data = p.data ++ rest.data := String.data_append p rest
  rw [hd, List.drop_left]
  cases rep with
  | mk rd =>
    cases rest with
    | mk restd => rfl

theorem hasScheme_not_slash (u : String) (h : hasScheme u = true) :
    jsStartsWith u "/" = false := by
  unfold hasScheme at h
  rcases Bool.or_eq_true_iff.mp h with h1 | h1
  · exact jsStartsWith_incomp u "http://" "/" h1 (by decide) (by decide)
  · exact jsStartsWith_incomp u "https://" "/" h1 (by decide) (by decide)

/-! ### C1: prependRestfulBasename -/

/-- C1: every non-absolute URL not under `/mock/` resolves to
`context.restfulApi + url`; every `/mock/` URL resolves to
`context.locationOrigin + context.basename + url`; absolute URLs pass through
unchanged except that on the client a leading `http:` is stripped. -/
theorem prependRestfulBasename_correct (ctx : Context) (u : String) :
    (isAbsoluteUrl u = false → jsStartsWith u "/mock/" = false →
      prependRestfulBasename ctx u = ctx.restfulApi ++ u) ∧
    (jsStartsWith u "/mock/" = true →
      prependRestfulBasename ctx u = ctx.locationOrigin ++ ctx.basename ++ u) ∧
    (isAbsoluteUrl u = true → ctx.isClient = false →
      prependRestfulBasename ctx u = u) ∧
    (isAbsoluteUrl u = true → jsStartsWith u "http:" = false →
      prependRestfulBasename ctx u = u) ∧
    (∀ rest : String, u = "http:" ++ rest → ctx.isClient = true →
      prependRestfulBasename ctx u = rest) := by
  refine ⟨?_, ?_, ?_, ?_, ?_⟩
  · intro habs hmock
    simp [prependRestfulBasename, habs, hmock]
  · intro hmock
    have habs : isAbsoluteUrl u = false := by
      unfold isAbsoluteUrl
      rw [Bool.or_eq_false_iff]
      exact ⟨jsStartsWith_incomp u "/mock/" "http" hmock (by decide) (by decide),
             jsStartsWith_incomp u "/mock/" "//" hmock (by decide) (by decide)⟩
    simp [prependRestfulBasename, habs, hmock]
  · intro habs hclient
    simp [prependRestfulBasename, habs, hclient]
  · intro habs hhttp
    simp [prependRestfulBasename, habs, hhttp]
  · intro rest hu hclient
    subst hu
    have hhttp : jsStartsWith ("http:" ++ rest) "http:" = true := jsStartsWith_append _ _
    have habs : isAbsoluteUrl ("http:" ++ rest) = true := by
      unfold isAbsoluteUrl
      rw [Bool.or_eq_true_iff]
      exact Or.inl (jsStartsWith_of_sub _ "http:" "http" hhttp (by decide))
    simp only [prependRestfulBasename, habs, hclient, hhttp, Bool.and_self, if_true]
    exact jsReplaceFirst_strip "http:" "" rest

/-- Client-side context used in witnesses. -/
def ctxClient : Context :=
  { isClient := true, isServer := false, cookie := "", locationOrigin := "",
    basename := "/app", publicPath := "/static", restfulApi := "//api.example.com",
    preload := [] }

/-- Server-side context used in witnesses. -/
def ctxServer : Context :=
  { isClient := false, isServer := true, cookie := "sid=1",
    locationOrigin := "http://www.example.com", basename := "/app",
    publicPath := "/static", restfulApi := "http://api.example.com",
    preload := [] }

theorem prependRestfulBasename_correct_witness :
    prependRestfulBasename ctxServer "/user" = "http://api.example.com" ++ "/user" ∧
    prependRestfulBasename ctxServer "/mock/user" =
      "http://www.example.com" ++ "/app" ++ "/mock/user" ∧
    prependRestfulBasename ctxServer "http://cdn.example.com/x" = "http://cdn.example.com/x" ∧
    prependRestfulBasename ctxClient "https://cdn.example.com/x" = "https://cdn.example.com/x" ∧
    prependRestfulBasename ctxClient "http://api.example.com/x" = "//api.example.com/x" :=
  ⟨(prependRestfulBasename_correct ctxServer "/user").1 (by decide) (by decide),
   (prependRestfulBasename_correct ctxServer "/mock/user").2.1 (by decide),
   (prependRestfulBasename_correct ctxServer "http://cdn.example.com/x").2.2.1
     (by decide) (by decide),
   (prependRestfulBasename_correct ctxClient "https://cdn.example.com/x").2.2.2.1
     (by decide) (by decide),
   (prependRestfulBasename_correct ctxClient "http://api.example.com/x").2.2.2.2
     "//api.example.com/x" (by decide) (by decide)⟩

/-! ### C8: normalizePort -/

/-- C8: non-numeric strings pass through as pipe names, strings parsing to a
non-negative integer become that port number, negative values become `false`
(no port). -/
theorem normalizePort_correct (s : String) :
    (jsParseInt10 s = none → normalizePort s = .pipe s) ∧
    (∀ n : Nat, jsParseInt10 s = some (n : Int) → normalizePort s = .port n) ∧
    (∀ m : Int, jsParseInt10 s = some m → m < 0 → normalizePort s = .noPort) := by
  refine ⟨?_, ?_, ?_⟩
  · intro h
    simp [normalizePort, h]
  · intro n h
    simp [normalizePort, h]
  · intro m h hneg
    simp [normalizePort, h, not_le.mpr hneg]

theorem normalizePort_correct_witness :
    normalizePort "devpipe" = .pipe "devpipe" ∧
    normalizePort "3000" = .port 3000 ∧
    normalizePort "-1" = .noPort :=
  ⟨(normalizePort_correct "devpipe").1 (by decide),
   (normalizePort_correct "3000").2.1 3000 (by decide),
   (normalizePort_correct "-1").2.2 (-1) (by decide) (by decide)⟩

/-! ### C9: the patched global fetch -/

/-- C9: every URL beginning with `/` is rewritten to
`http://localhost:<port> + url` before the underlying fetch runs; every
absolute (scheme-carrying) URL reaches the underlying fetch unmodified. -/
theorem patchedFetchUrl_correct (portStr url : String) :
    (jsStartsWith url "/" = true →
      patchedFetchUrl portStr url = "http://localhost:" ++ portStr ++ url) ∧
    (hasScheme url = true → patchedFetchUrl portStr url = url) := by
  constructor
  · intro h
    simp [patchedFetchUrl, h]
  · intro h
    simp [patchedFetchUrl, hasScheme_not_slash url h]

theorem patchedFetchUrl_correct_witness :
    patchedFetchUrl "3000" "/api/user" = "http://localhost:" ++ "3000" ++ "/api/user" ∧
    patchedFetchUrl "3000" "https://cdn.example.com/a.css" = "https://cdn.example.com/a.css" :=
  ⟨(patchedFetchUrl_correct "3000" "/api/user").1 (by decide),
   (patchedFetchUrl_correct "3000" "https://cdn.example.com/a.css").2 (by decide)⟩

/-! ### The dev-server hot-module loop (`setupServer`) -/

/-- A scalar JS value: enough to model the exports of a compiled server bundle
and its `default` property, together with JS truthiness. -/
inductive JLeaf where
  | undef
  | jsNull
  | boolean (b : Bool)
  | number (n : Int)
  | str (s : String)
  | obj (id : Nat)
deriving DecidableEq

/-- JS truthiness of a scalar value. -/
def truthyLeaf : JLeaf → Bool
  | .undef => false
  | .jsNull => false
  | .boolean b => b
  | .number n => n != 0
  | .str s => s != ""
  | .obj _ => true

/-- The `module.exports` value an evaluated server bundle produced, together
with its `default` property (`none` models the property being absent, so that
reading it yields `undefined`). -/
structure ModVal where
  top : JLeaf
  defaultField : Option JLeaf
deriving DecidableEq

/-- JS `newModule.default || newModule`. -/
def defaultOrSelf (m : ModVal) : JLeaf :=
  match m.defaultField with
  | some d => if truthyLeaf d then d else m.top
  | none => m.top

/-- The vm-evaluated wrapper of `setupServer`: running the compiled source
either throws (the `catch` logs the error via `console.log` and returns
`null`) or yields the `module.exports` value. -/
def loadServerModule (outcome : Except String ModVal) : ModVal × List String :=
  match outcome with
  | .error e => ({ top := .jsNull, defaultField := none }, [e])
  | .ok m => (m, [])

/-- One pass of the `setupServer` watch callback after a rebuild: the value
passed to `options.handleHotModule` (if it is invoked at all), and the log
lines produced by the evaluation guard. -/
def setupServerStep (outcome : Except String ModVal) : Option JLeaf × List String :=
  let (newModule, logs) := loadServerModule outcome
  if truthyLeaf newModule.top then (some (defaultOrSelf newModule), logs)
  else (none, logs)

/-! ### C7: hot-swap error guard -/

/-- C7 counterexample: a module whose `default` export is present but falsy
(`export default 0`).  Evaluation succeeds, yet `handleHotModule` receives the
module itself, not the present `default` export, contradicting the claim's
"with the module's default export if present". -/
theorem setupServerStep_falsy_default_cex :
    (setupServerStep (.ok { top := .obj 1, defaultField := some (.number 0) })).1 =
      some (.obj 1) ∧
    JLeaf.obj 1 ≠ JLeaf.number 0 := by
  constructor
  · rfl
  · decide

/-- C7 (amended): a thrown evaluation is logged and `handleHotModule` is not
invoked; it is invoked only when evaluation completes without throwing (and
the exports value is truthy), and then with the module's `default` export if
that is present and truthy, otherwise with the module itself. -/
theorem setupServerStep_correct (e : String) (m : ModVal) (d : JLeaf) :
    (setupServerStep (.error e) = (none, [e])) ∧
    (truthyLeaf m.top = true → m.defaultField = some d → truthyLeaf d = true →
      setupServerStep (.ok m) = (some d, [])) ∧
    (truthyLeaf m.top = true → m.defaultField = some d → truthyLeaf d = false →
      setupServerStep (.ok m) = (some m.top, [])) ∧
    (truthyLeaf m.top = true → m.defaultField = none →
      setupServerStep (.ok m) = (some m.top, [])) ∧
    (truthyLeaf m.top = false → setupServerStep (.ok m) = (none, [])) := by
  refine ⟨?_, ?_, ?_, ?_, ?_⟩
  · rfl
  · intro ht hd htd
    simp [setupServerStep, loadServerModule, defaultOrSelf, ht, hd, htd]
  · intro ht hd htd
    simp [setupServerStep, loadServerModule, defaultOrSelf, ht, hd, htd]
  · intro ht hd
    simp [setupServerStep, loadServerModule, defaultOrSelf, ht, hd]
  · intro ht
    simp [setupServerStep, loadServerModule, ht]

theorem setupServerStep_correct_witness :
    setupServerStep (.error "SyntaxError") = (none, ["SyntaxError"]) ∧
    setupServerStep (.ok { top := .obj 1, defaultField := some (.obj 2) }) =
      (some (.obj 2), []) ∧
    setupServerStep (.ok { top := .obj 1, defaultField := none }) =
      (some (.obj 1), []) ∧
    setupServerStep (.ok { top := .number 0, defaultField := none }) = (none, []) :=
  ⟨(setupServerStep_correct "SyntaxError" { top := .obj 1, defaultField := none } .undef).1,
   (setupServerStep_correct "SyntaxError" { top := .obj 1, defaultField := some (.obj 2) }
      (.obj 2)).2.1 (by decide) rfl (by decide),
   (setupServerStep_correct "SyntaxError" { top := .obj 1, defaultField := none }
      .undef).2.2.2.1 (by decide) rfl,
   (setupServerStep_correct "SyntaxError" { top := .number 0, defaultField := none }
      .undef).2.2.2.2 (by decide)⟩

/-! ### The Controller base class -/

/-- A route location. -/
structure Location where
  raw : String
  pattern : String
deriving DecidableEq

/-- A plain state object: string-valued fields plus an optional `api` object
(name → endpoint URL), the one field `init()` treats specially. -/
structure SObj where
  fields : List (String × String)
  api : Option (List (String × String))
deriving DecidableEq

/-- JS object spread on the state model: the entries of `b` shadow those of
`a` under last-write-wins lookup; `b`'s `api` wins when both define one. -/
def spreadSObj (a b : SObj) : SObj :=
  { fields := a.fields ++ b.fields
    api := match b.api with
      | some api => some api
      | none => a.api }

/-- The store state assembled by `init()`: the user-supplied fields plus the
computed fields the merge always overwrites (`location`, `isClient`,
`isServer`, `publicPath`, `restfulApi`). -/
structure TState where
  user : SObj
  location : Location
  isClient : Bool
  isServer : Bool
  publicPath : String
  restfulApi : String
deriving DecidableEq

/-- Modelled from the spec: `relite`'s `createStore` is external to the
sources; per the spec the store owns the merged actions mapping (tracked here
by name) and the initial state. -/
structure Store where
  actions : List String
  state : TState
deriving DecidableEq

/-- `createStore(finalActions, finalInitialState)`. -/
def createStore (actions : List String) (initialState : TState) : Store :=
  { actions := actions, state := initialState }

/-- An own enumerable property of a controller instance: a function value
(tracked by identity) or some other value. -/
inductive Member where
  | func (id : Nat)
  | plain
deriving DecidableEq

/-- The result of `value.bind(this)`: the function together with the instance
its `this` is permanently bound to. -/
structure BoundHandler where
  funcId : Nat
  boundTo : Nat
deriving DecidableEq

/-- `Controller.combineHandlers`: for every key of `source` holding a function
and starting with `handle`, store the function bound to the instance in
`this.handlers` (later assignments shadow earlier ones). -/
def combineHandlers (selfId : Nat) (handlers : List (String × BoundHandler))
    (source : List (String × Member)) : List (String × BoundHandler) :=
  source.foldl
    (fun hs kv =>
      match kv.2 with
      | .func id =>
        if jsStartsWith kv.1 "handle" then hs ++ [(kv.1, { funcId := id, boundTo := selfId })]
        else hs
      | .plain => hs)
    handlers

/-- The global hydration variable `__INITIAL_STATE__` the server embeds in the
rendered page. -/
structure Globals where
  initialState? : Option SObj
deriving DecidableEq

/-- Resolution of one preload URL: relative URLs get origin and public path. -/
def resolvePreloadUrl (ctx : Context) (url : String) : String :=
  if isAbsoluteUrl url then url else prependPublicPath ctx url

/-- The URL the inner `this.fetch` actually requests for a preload entry:
`fetch` runs the already-resolved URL through `prependRestfulBasename`. -/
def preloadFetchUrl (ctx : Context) (url : String) : String :=
  prependRestfulBasename ctx (resolvePreloadUrl ctx url)

/-- The CSS normalization `content.replace(/\x5cr+/g, "")`: the regex matches
exactly the maximal runs of carriage returns, so every CR is removed. -/
def stripCR (content : String) : String :=
  String.mk (content.data.filter (fun c => c != '\r'))

/-- Content cached for a preload entry: entries whose resolved URL contains
`.css` lose their carriage returns, all others are cached as fetched. -/
def processPreloadContent (resolvedUrl content : String) : String :=
  if jsContains resolvedUrl ".css" then stripCR content else content

/-- JS truthiness of a cache lookup (`context.preload[name]`). -/
def truthyEntry (v : Option String) : Bool :=
  match v with
  | some s => s != ""
  | none => false

/-- One call of `Controller.fetchPreload` past the guard, on a declared spec
(a JS object, modelled as a name → URL list).  The `keys.map` body runs
synchronously, so every cache check reads the cache as it was when the call
started; the writes land in the `then` callbacks after all checks.  Returns
the new `context.preload` and the URLs actually fetched, `net` giving the
text the network returns for a URL. -/
def fetchPreloadCore (ctx : Context) (net : String → String)
    (spec : List (String × String)) : List (String × String) × List String :=
  let todo := spec.filter (fun p => !truthyEntry (objLookup ctx.preload p.1))
  (ctx.preload ++ todo.map (fun p =>
      (p.1, processPreloadContent (resolvePreloadUrl ctx p.2)
              (net (preloadFetchUrl ctx p.2)))),
   todo.map (fun p => preloadFetchUrl ctx p.2))

/-- A thrown JS exception (only its kind matters here). -/
inductive JsError where
  | typeError
deriving DecidableEq

/-- JS `Object.keys`: throws a `TypeError` on `undefined`, otherwise lists the
keys. -/
def objectKeys (o : Option (List (String × String))) : Except JsError (List String) :=
  match o with
  | none => .error .typeError
  | some entries => .ok (entries.map Prod.fst)

/-- `Controller.fetchPreload` as written: `preload = preload || this.preload`,
then `Object.keys(preload)` (which throws on `undefined`), then the
`!preload || keys.length === 0` guard, then the fetch loop. -/
def fetchPreloadJs (ctx : Context) (net : String → String)
    (arg own : Option (List (String × String))) :
    Except JsError (List (String × String) × List String) :=
  let preload := match arg with
    | some spec => some spec
    | none => own
  match objectKeys preload with
  | .error e => .error e
  | .ok keys =>
    match preload with
    | none => .ok (ctx.preload, [])
    | some spec =>
      if keys.length = 0 then .ok (ctx.preload, [])
      else .ok (fetchPreloadCore ctx net spec)

/-- The controller-instance state `init()` manipulates.  `members` are the own
enumerable properties `Object.keys(this)` sees, `shouldComponentCreate` the
resolved result of the hook when the controller defines one, `getInitialState`
the dynamic initial-state provider, `preload` the declared preload spec. -/
structure Controller where
  selfId : Nat
  location : Location
  context : Context
  handlers : List (String × BoundHandler)
  members : List (String × Member)
  initialState : SObj
  getInitialState : Option (TState → TState)
  actions : List String
  shouldComponentCreate : Option Bool
  preload : Option (List (String × String))
  store : Option Store

/-- Render output of `Controller.render()`: the `BaseView`-wrapped view keyed
by `location.raw`, receiving the store state and the handlers. -/
structure RenderResult where
  state : TState
  handlers : List (String × BoundHandler)
  key : String
deriving DecidableEq

/-- `Controller.bindStoreToView` followed by `render()` (the client-side
subscription bookkeeping does not matter to the claims below): the rendered
output built from the store state and the handlers. -/
def bindStoreToView (c : Controller) : Option RenderResult :=
  c.store.map (fun s => { state := s.state, handlers := c.handlers, key := c.location.raw })

/-- Everything observable after `init()`: the mutated controller, the global
hydration variable, and the value `init()` resolved with (`none` models the
`return null` path; otherwise `bindStoreToView`'s render output). -/
structure InitOutcome where
  controller : Controller
  globals : Globals
  result : Option RenderResult

/-- `Controller.init`: consume the hydration snapshot, merge the initial
state, run the dynamic provider, qualify the `api` URLs, create the store,
assemble the handlers, then either bind directly (hydration), abort on a
`shouldComponentCreate` resolving `false`, or run the creation hooks
(`componentWillCreate` and `fetchPreload`) and bind.  `shared` is the
`shareActions` module, `net` the network. -/
def Controller.init (shared : List String) (c : Controller) (g : Globals)
    (net : String → String) : InitOutcome :=
  let globalInitialState := g.initialState?
  let g1 : Globals :=
    match g.initialState? with
    | some _ => { initialState? := none }
    | none => g
  let merged : SObj :=
    match globalInitialState with
    | some snapshot => spreadSObj c.initialState snapshot
    | none => c.initialState
  let st0 : TState :=
    { user := merged, location := c.location, isClient := c.context.isClient,
      isServer := c.context.isServer, publicPath := c.context.publicPath,
      restfulApi := c.context.restfulApi }
  let st1 : TState :=
    match c.getInitialState with
    | some f => f st0
    | none => st0
  let st2 : TState :=
    match st1.user.api with
    | some api =>
      { st1 with user := { st1.user with
          api := some (api.map (fun kv => (kv.1, prependRestfulBasename c.context kv.2))) } }
    | none => st1
  let store := createStore (shared ++ c.actions) st2
  let c1 : Controller := { c with store := some store }
  let c2 : Controller := { c1 with handlers := combineHandlers c1.selfId c1.handlers c1.members }
  match globalInitialState with
  | some _ =>
    { controller := c2, globals := g1, result := bindStoreToView c2 }
  | none =>
    if c2.shouldComponentCreate = some false then
      { controller := c2, globals := g1, result := none }
    else
      let c3 : Controller :=
        match c2.preload with
        | some spec =>
          { c2 with context :=
              { c2.context with preload := (fetchPreloadCore c2.context net spec).1 } }
        | none => c2
      { controller := c3, globals := g1, result := bindStoreToView c3 }

/-! ### Lookup lemmas for the JS-object model -/

theorem objLookup_nil {α : Type} (k : String) : objLookup ([] : List (String × α)) k = none := rfl

theorem objLookup_eq_none_of_not_mem {α : Type} (l : List (String × α)) (k : String)
    (h : k ∉ l.map Prod.fst) : objLookup l k = none := by
  unfold objLookup
  rw [List.find?_eq_none.mpr]
  · rfl
  · intro x hx
    intro hbeq
    apply h
    rw [List.mem_map]
    exact ⟨x, List.mem_reverse.mp hx, eq_of_beq hbeq⟩

theorem objLookup_cons {α : Type} (p : String × α) (rest : List (String × α)) (k : String) :
    objLookup (p :: rest) k =
      match objLookup rest k with
      | some v => some v
      | none => if p.1 == k then some p.2 else none := by
  unfold objLookup
  rw [List.reverse_cons, List.find?_append]
  cases hfind : List.find? (fun q => q.1 == k) rest.reverse with
  | none =>
    by_cases h : p.1 = k
    · have hb : (p.1 == k) = true := beq_iff_eq.mpr h
      simp [hfind, List.find?, hb, h]
    · have hb : (p.1 == k) = false := beq_eq_false_iff_ne.mpr h
      simp [hfind, List.find?, hb, h]
  | some v => simp [hfind]

theorem objLookup_of_mem_nodup {α : Type} (l : List (String × α)) (k : String) (v : α)
    (hmem : (k, v) ∈ l) (hnodup : (l.map Prod.fst).Nodup) :
    objLookup l k = some v := by
  induction l with
  | nil => cases hmem
  | cons p rest ih =>
    rw [List.map_cons, List.nodup_cons] at hnodup
    rw [objLookup_cons]
    rcases List.mem_cons.mp hmem with heq | hrest
    · subst heq
      rw [objLookup_eq_none_of_not_mem rest k hnodup.1]
      simp
    · rw [ih hrest hnodup.2]

theorem objLookup_append_right {α : Type} (a b : List (String × α)) (k : String) (v : α)
    (h : objLookup b k = some v) : objLookup (a ++ b) k = some v := by
  unfold objLookup at h ⊢
  rw [List.reverse_append, List.find?_append]
  cases hb : List.find? (fun q => q.1 == k) b.reverse with
  | none => rw [hb] at h; cases h
  | some w => rw [hb] at h; simp [hb, h]

/-! ### combineHandlers as a filterMap -/

/-- The entry `combineHandlers` produces from one own property. -/
def handlerEntry (selfId : Nat) (kv : String × Member) : Option (String × BoundHandler) :=
  match kv.2 with
  | .func id =>
    if jsStartsWith kv.1 "handle" then some (kv.1, { funcId := id, boundTo := selfId })
    else none
  | .plain => none

theorem combineHandlers_eq (selfId : Nat) (h0 : List (String × BoundHandler))
    (ms : List (String × Member)) :
    combineHandlers selfId h0 ms = h0 ++ ms.filterMap (handlerEntry selfId) := by
  induction ms generalizing h0 with
  | nil => simp [combineHandlers]
  | cons p rest ih =>
    rw [List.filterMap_cons]
    cases hp : p.2 with
    | func id =>
      by_cases hk : jsStartsWith p.1 "handle" = true
      · have : handlerEntry selfId p = some (p.1, { funcId := id, boundTo := selfId }) := by
          simp [handlerEntry, hp, hk]
        rw [this]
        unfold combineHandlers
        rw [List.foldl_cons]
        simp only [hp, hk, if_true]
        have ih2 := ih (h0 ++ [(p.1, { funcId := id, boundTo := selfId })])
        simp only [List.append_assoc, List.singleton_append] at ih2
        exact ih2
      · have : handlerEntry selfId p = none := by
          simp [handlerEntry, hp, hk]
        rw [this]
        unfold combineHandlers
        rw [List.foldl_cons]
        simp only [hp, hk]
        exact ih h0
    | plain =>
      have : handlerEntry selfId p = none := by simp [handlerEntry, hp]
      rw [this]
      unfold combineHandlers
      rw [List.foldl_cons]
      simp only [hp]
      exact ih h0

/-- The keys of the handler map are among the member keys. -/
theorem handlerEntry_keys_sublist (selfId : Nat) (ms : List (String × Member)) :
    ((ms.filterMap (handlerEntry selfId)).map Prod.fst).Sublist (ms.map Prod.fst) := by
  induction ms with
  | nil => simp
  | cons p rest ih =>
    rw [List.filterMap_cons]
    cases he : handlerEntry selfId p with
    | none =>
      rw [List.map_cons]
      exact ih.trans (List.sublist_cons_self _ _)
    | some out =>
      have hfst : out.1 = p.1 := by
        unfold handlerEntry at he
        split at he
        · split at he
          · cases he
            rfl
          · cases he
        · cases he
      rw [List.map_cons, List.map_cons, hfst]
      exact ih.cons₂ p.1

/-- Whatever branch `init()` takes, the handlers it leaves on the controller
are the ones `combineHandlers(this)` assembled. -/
theorem init_handlers_eq (shared : List String) (c : Controller) (g : Globals)
    (net : String → String) :
    (Controller.init shared c g net).controller.handlers =
      combineHandlers c.selfId c.handlers c.members := by
  obtain ⟨gi⟩ := g
  cases gi with
  | some s => rfl
  | none =>
    unfold Controller.init
    dsimp only
    repeat' split
    all_goals rfl

/-! ### init(): shared facts -/

theorem bindStoreToView_isSome (c : Controller) :
    (bindStoreToView c).isSome = c.store.isSome := by
  cases h : c.store <;> simp [bindStoreToView, h]

/-- `init()` always creates the store and assigns it before returning. -/
theorem init_store_set (shared : List String) (c : Controller) (g : Globals)
    (net : String → String) :
    (Controller.init shared c g net).controller.store.isSome = true := by
  obtain ⟨gi⟩ := g
  cases gi with
  | some s => rfl
  | none =>
    unfold Controller.init
    dsimp only
    repeat' split
    all_goals rfl

/-- After any `init()`, the global hydration variable is clear. -/
theorem init_globals_none (shared : List String) (c : Controller) (g : Globals)
    (net : String → String) :
    (Controller.init shared c g net).globals.initialState? = none := by
  obtain ⟨gi⟩ := g
  cases gi with
  | some s => rfl
  | none =>
    unfold Controller.init
    dsimp only
    repeat' split
    all_goals rfl

/-- With a hydration snapshot present, `init()` binds directly and resolves
with a render result. -/
theorem init_result_hyd (shared : List String) (c : Controller) (g : Globals)
    (net : String → String) (s : SObj) (hg : g.initialState? = some s) :
    (Controller.init shared c g net).result.isSome = true := by
  obtain ⟨gi⟩ := g
  cases gi with
  | some s2 =>
    have : (Controller.init shared c { initialState? := some s2 } net).result =
        bindStoreToView (Controller.init shared c { initialState? := some s2 } net).controller :=
      rfl
    rw [this, bindStoreToView_isSome]
    exact init_store_set shared c { initialState? := some s2 } net
  | none => simp at hg

/-- Without a snapshot, a `shouldComponentCreate` hook resolving `false`
makes `init()` resolve `null`. -/
theorem init_abort (shared : List String) (c : Controller) (g : Globals)
    (net : String → String) (hg : g.initialState? = none)
    (hs : c.shouldComponentCreate = some false) :
    (Controller.init shared c g net).result = none := by
  obtain ⟨gi⟩ := g
  cases gi with
  | some s => simp at hg
  | none =>
    unfold Controller.init
    dsimp only
    simp [hs]

/-- The user-visible fields of the store state `init()` builds (when no
dynamic provider is configured): static `initialState`, with the hydration
snapshot spread over it when one was present. -/
theorem init_store_fields (shared : List String) (c : Controller) (g : Globals)
    (net : String → String) (hget : c.getInitialState = none) :
    (Controller.init shared c g net).controller.store.map (fun st => st.state.user.fields) =
      some ((match g.initialState? with
             | some s => spreadSObj c.initialState s
             | none => c.initialState).fields) := by
  obtain ⟨gi⟩ := g
  cases gi with
  | some s =>
    unfold Controller.init
    dsimp only
    simp only [hget]
    repeat' split
    all_goals rfl
  | none =>
    unfold Controller.init
    dsimp only
    simp only [hget]
    repeat' split
    all_goals rfl

/-! ### C2: shouldComponentCreate === false aborts after store creation -/

/-- C2: with no hydration snapshot and a `shouldComponentCreate` hook
resolving `false`, `init()` resolves to `null` — no view, and the resolved
value is not a `bindStoreToView` output (binding the resulting controller
would have produced one) — while the store has already been created and
assigned to `this.store`. -/
theorem init_shouldComponentCreate_false (shared : List String) (c : Controller)
    (g : Globals) (net : String → String)
    (hg : g.initialState? = none)
    (hs : c.shouldComponentCreate = some false) :
    (Controller.init shared c g net).result = none ∧
    (Controller.init shared c g net).controller.store.isSome = true ∧
    (bindStoreToView (Controller.init shared c g net).controller).isSome = true :=
  ⟨init_abort shared c g net hg hs,
   init_store_set shared c g net,
   by rw [bindStoreToView_isSome]; exact init_store_set shared c g net⟩

/-- The network of the witnesses: every URL fetches to the empty string. -/
def netEmpty : String → String := fun _ => ""

/-- Concrete controller used by the witnesses. -/
def demoController : Controller :=
  { selfId := 7
    location := { raw := "/home", pattern := "/home" }
    context := ctxClient
    handlers := []
    members := [("handleClick", Member.func 3), ("title", Member.plain)]
    initialState := { fields := [("count", "0")], api := none }
    getInitialState := none
    actions := ["update"]
    shouldComponentCreate := some false
    preload := none
    store := none }

theorem init_shouldComponentCreate_false_witness :
    (Controller.init [] demoController { initialState? := none } netEmpty).result = none ∧
    (Controller.init [] demoController { initialState? := none } netEmpty).controller.store.isSome
      = true ∧
    (bindStoreToView
        (Controller.init [] demoController { initialState? := none } netEmpty).controller).isSome
      = true :=
  init_shouldComponentCreate_false [] demoController { initialState? := none } netEmpty rfl rfl

/-! ### C3: the hydration snapshot is consumed at most once -/

/-- C3: when `init()` runs with the hydration snapshot present, it reads the
snapshot into the merged initial state, clears the global, and binds directly
(even a `false`-resolving `shouldComponentCreate` is skipped); a subsequent
`init()` in the same session sees the snapshot absent, merges without it, and
takes the non-hydration path, on which `shouldComponentCreate` is consulted
again. -/
theorem init_hydration_consumed_once (shared : List String) (c : Controller)
    (g : Globals) (s : SObj) (net : String → String)
    (hg : g.initialState? = some s)
    (hget : c.getInitialState = none) :
    (Controller.init shared c g net).globals.initialState? = none ∧
    ((Controller.init shared c g net).controller.store.map
        (fun st => st.state.user.fields)) = some (c.initialState.fields ++ s.fields) ∧
    (Controller.init shared c g net).result.isSome = true ∧
    ((Controller.init shared c (Controller.init shared c g net).globals
        net).controller.store.map (fun st => st.state.user.fields))
      = some c.initialState.fields ∧
    (c.shouldComponentCreate = some false →
      (Controller.init shared c (Controller.init shared c g net).globals net).result = none) := by
  have hgnone := init_globals_none shared c g net
  refine ⟨hgnone, ?_, init_result_hyd shared c g net s hg, ?_,
    fun hs => init_abort shared c _ net hgnone hs⟩
  · have h := init_store_fields shared c g net hget
    rw [hg] at h
    exact h
  · have h := init_store_fields shared c (Controller.init shared c g net).globals net hget
    rw [hgnone] at h
    exact h

/-- Concrete hydration snapshot used by the witness. -/
def demoSnapshot : SObj :=
  { fields := [("count", "9")], api := none }

theorem init_hydration_consumed_once_witness :
    (Controller.init [] demoController { initialState? := some demoSnapshot }
        netEmpty).globals.initialState? = none ∧
    ((Controller.init [] demoController { initialState? := some demoSnapshot }
        netEmpty).controller.store.map (fun st => st.state.user.fields))
      = some (demoController.initialState.fields ++ demoSnapshot.fields) ∧
    (Controller.init [] demoController { initialState? := some demoSnapshot }
        netEmpty).result.isSome = true ∧
    ((Controller.init [] demoController
        (Controller.init [] demoController { initialState? := some demoSnapshot }
          netEmpty).globals netEmpty).controller.store.map
        (fun st => st.state.user.fields)) = some demoController.initialState.fields ∧
    (Controller.init [] demoController
        (Controller.init [] demoController { initialState? := some demoSnapshot }
          netEmpty).globals netEmpty).result = none := by
  have h := init_hydration_consumed_once [] demoController
    { initialState? := some demoSnapshot } demoSnapshot netEmpty rfl rfl
  exact ⟨h.1, h.2.1, h.2.2.1, h.2.2.2.1, h.2.2.2.2 rfl⟩

/-! ### C5: handlers assembled from handle-prefixed own function members -/

/-- C5: after `init()`, every own function member whose name begins with
`handle` has an entry in `this.handlers`, namely that function bound to the
controller instance; and every stored handler is bound to the owning
instance. -/
theorem init_handlers_correct (shared : List String) (c : Controller) (g : Globals)
    (net : String → String) (k : String) (id : Nat)
    (hh : c.handlers = [])
    (hnodup : (c.members.map Prod.fst).Nodup)
    (hmem : (k, Member.func id) ∈ c.members)
    (hk : jsStartsWith k "handle" = true) :
    objLookup (Controller.init shared c g net).controller.handlers k =
      some { funcId := id, boundTo := c.selfId } ∧
    ∀ kv ∈ (Controller.init shared c g net).controller.handlers,
      kv.2.boundTo = c.selfId := by
  rw [init_handlers_eq, combineHandlers_eq, hh, List.nil_append]
  constructor
  · apply objLookup_of_mem_nodup
    · exact List.mem_filterMap.mpr ⟨(k, Member.func id), hmem, by simp [handlerEntry, hk]⟩
    · exact List.Nodup.sublist (handlerEntry_keys_sublist c.selfId c.members) hnodup
  · intro kv hkv
    obtain ⟨src, hsrc, hout⟩ := List.mem_filterMap.mp hkv
    unfold handlerEntry at hout
    split at hout
    · split at hout
      · cases hout
        rfl
      · cases hout
    · cases hout

theorem init_handlers_correct_witness :
    objLookup (Controller.init [] demoController { initialState? := none }
        netEmpty).controller.handlers "handleClick" = some { funcId := 3, boundTo := 7 } := by
  have h := init_handlers_correct [] demoController { initialState? := none } netEmpty
    "handleClick" 3 rfl (by decide) (by decide) (by decide)
  exact h.1

/-! ### fetchPreload: cache behaviour -/

theorem fetchPreloadCore_snd (ctx : Context) (net : String → String)
    (spec : List (String × String)) :
    (fetchPreloadCore ctx net spec).2 =
      (spec.filter (fun p => !truthyEntry (objLookup ctx.preload p.1))).map
        (fun p => preloadFetchUrl ctx p.2) := rfl

theorem fetchPreloadCore_fst (ctx : Context) (net : String → String)
    (spec : List (String × String)) :
    (fetchPreloadCore ctx net spec).1 =
      ctx.preload ++ (spec.filter (fun p => !truthyEntry (objLookup ctx.preload p.1))).map
        (fun p => (p.1, processPreloadContent (resolvePreloadUrl ctx p.2)
                          (net (preloadFetchUrl ctx p.2)))) := rfl

/-- Entries not truthy in the cache when the call starts are all fetched. -/
theorem fetchPreloadCore_fetches_all (ctx : Context) (net : String → String)
    (spec : List (String × String))
    (hfresh : ∀ p ∈ spec, truthyEntry (objLookup ctx.preload p.1) = false) :
    (fetchPreloadCore ctx net spec).2 = spec.map (fun p => preloadFetchUrl ctx p.2) := by
  rw [fetchPreloadCore_snd]
  congr 1
  apply List.filter_eq_self.mpr
  intro p hp
  rw [hfresh p hp]
  rfl

/-- What one `fetchPreload` call leaves in the cache for a fetched entry. -/
theorem fetchPreloadCore_cache_lookup (ctx : Context) (net : String → String)
    (spec : List (String × String)) (p : String × String)
    (hnodup : (spec.map Prod.fst).Nodup)
    (hmem : p ∈ spec)
    (hfresh : truthyEntry (objLookup ctx.preload p.1) = false) :
    objLookup (fetchPreloadCore ctx net spec).1 p.1 =
      some (processPreloadContent (resolvePreloadUrl ctx p.2)
              (net (preloadFetchUrl ctx p.2))) := by
  rw [fetchPreloadCore_fst]
  apply objLookup_append_right
  apply objLookup_of_mem_nodup
  · refine List.mem_map.mpr ⟨p, List.mem_filter.mpr ⟨hmem, ?_⟩, rfl⟩
    rw [hfresh]
    rfl
  · rw [List.map_map]
    exact List.Nodup.sublist ((List.filter_sublist _).map _) hnodup

/-! ### C4: no re-fetch of cached preload entries -/

/-- C4 counterexample: a preload resource whose fetched text is empty.  The
first call fetches and caches the entry under its name, yet a second call
with the same spec fetches it again, because the cache check is a JS
truthiness test and the cached empty string is falsy. -/
theorem fetchPreload_refetch_cex :
    (fetchPreloadCore ctxServer netEmpty [("style", "/a.css")]).1 = [("style", "")] ∧
    (fetchPreloadCore
        { ctxServer with
          preload := (fetchPreloadCore ctxServer netEmpty [("style", "/a.css")]).1 }
        netEmpty [("style", "/a.css")]).2 =
      [preloadFetchUrl ctxServer "/a.css"] := by
  constructor
  · decide
  · decide

/-- C4 (amended): `fetchPreload` never fetches a name whose cached content is
truthy (non-empty); provided every fetched-and-processed content is
non-empty, two sequential calls with the same spec (distinct names, none
truthy in the cache at the start) issue exactly one fetch per name — the
first call fetches each name once, the second fetches nothing. -/
theorem fetchPreload_no_refetch (ctx : Context) (net : String → String)
    (spec : List (String × String))
    (hnodup : (spec.map Prod.fst).Nodup)
    (hfresh : ∀ p ∈ spec, truthyEntry (objLookup ctx.preload p.1) = false)
    (hnonempty : ∀ p ∈ spec,
      processPreloadContent (resolvePreloadUrl ctx p.2) (net (preloadFetchUrl ctx p.2)) ≠ "") :
    (fetchPreloadCore ctx net spec).2 = spec.map (fun p => preloadFetchUrl ctx p.2) ∧
    (fetchPreloadCore
        { ctx with preload := (fetchPreloadCore ctx net spec).1 }
        net spec).2 = [] := by
  have hnil : spec.filter
      (fun p => !truthyEntry (objLookup (fetchPreloadCore ctx net spec).1 p.1)) = [] := by
    apply List.filter_eq_nil_iff.mpr
    intro p hp
    rw [fetchPreloadCore_cache_lookup ctx net spec p hnodup hp (hfresh p hp)]
    simp [truthyEntry, hnonempty p hp]
  refine ⟨fetchPreloadCore_fetches_all ctx net spec hfresh, ?_⟩
  rw [fetchPreloadCore_snd]
  have hproj : ({ ctx with preload := (fetchPreloadCore ctx net spec).1 } : Context).preload =
      (fetchPreloadCore ctx net spec).1 := rfl
  rw [hproj, hnil]
  rfl

/-- The network of the C4 witness: every URL fetches to `"x"`. -/
def netX : String → String := fun _ => "x"

theorem fetchPreload_no_refetch_witness :
    (fetchPreloadCore ctxServer netX [("style", "/a.css")]).2 =
      [("style", "/a.css")].map (fun p => preloadFetchUrl ctxServer p.2) ∧
    (fetchPreloadCore
        { ctxServer with
          preload := (fetchPreloadCore ctxServer netX [("style", "/a.css")]).1 }
        netX [("style", "/a.css")]).2 = [] :=
  fetchPreload_no_refetch ctxServer netX [("style", "/a.css")]
    (by decide) (by decide) (by decide)

/-! ### C6: carriage returns stripped from CSS preload content -/

/-- C6: for a fetched preload entry, the cached content is the fetched text
with every carriage return removed when the resolved URL contains `.css`,
and the fetched text unmodified otherwise. -/
theorem fetchPreload_css_strip (ctx : Context) (net : String → String)
    (spec : List (String × String)) (p : String × String)
    (hnodup : (spec.map Prod.fst).Nodup)
    (hmem : p ∈ spec)
    (hfresh : truthyEntry (objLookup ctx.preload p.1) = false) :
    objLookup (fetchPreloadCore ctx net spec).1 p.1 =
      some (if jsContains (resolvePreloadUrl ctx p.2) ".css" = true
            then stripCR (net (preloadFetchUrl ctx p.2))
            else net (preloadFetchUrl ctx p.2)) := by
  rw [fetchPreloadCore_cache_lookup ctx net spec p hnodup hmem hfresh]
  by_cases h : jsContains (resolvePreloadUrl ctx p.2) ".css" = true <;>
    simp [processPreloadContent, h]

/-- The network of the C6 witness: every URL fetches to a text with an
embedded carriage return. -/
def netCR : String → String := fun _ => "a\rb"

theorem fetchPreload_css_strip_witness :
    objLookup (fetchPreloadCore ctxServer netCR [("style", "/a.css"), ("logo", "/l.png")]).1
        "style" =
      some (if jsContains (resolvePreloadUrl ctxServer "/a.css") ".css" = true
            then stripCR (netCR (preloadFetchUrl ctxServer "/a.css"))
            else netCR (preloadFetchUrl ctxServer "/a.css")) :=
  fetchPreload_css_strip ctxServer netCR [("style", "/a.css"), ("logo", "/l.png")]
    ("style", "/a.css") (by decide) (by decide) (by decide)

/-! ### C10: fetchPreload with no spec throws before the guard -/

/-- C10: when both the argument and `this.preload` are undefined,
`fetchPreload` throws a `TypeError` from `Object.keys(undefined)` instead of
returning; and the guard's `!preload` branch is unreachable, since the guard
only runs after `Object.keys` succeeded, which forces `preload` defined. -/
theorem fetchPreload_undefined_throws (ctx : Context) (net : String → String) :
    fetchPreloadJs ctx net none none = .error .typeError ∧
    ∀ o : Option (List (String × String)), ∀ ks,
      objectKeys o = .ok ks → o.isSome = true := by
  constructor
  · rfl
  · intro o ks h
    cases o with
    | none => cases h
    | some entries => rfl

theorem fetchPreload_undefined_throws_witness :
    fetchPreloadJs ctxServer netEmpty none none = .error .typeError ∧
    (some [("style", "/a.css")] : Option (List (String × String))).isSome = true :=
  ⟨(fetchPreload_undefined_throws ctxServer netEmpty).1,
   (fetchPreload_undefined_throws ctxServer netEmpty).2 (some [("style", "/a.css")])
     ["style"] rfl⟩
